import Mathlib

/-!
CarND-P10-MPC: the telemetry pipeline of `src/main.cpp`.

A shallow embedding of the controller cycle in `main.cpp`: the polynomial
evaluator `polyEval`, the Vandermonde fit `polyFit`, and the telemetry branch
of the `onMessage` handler (frame transform, fit, reference samples, error
terms, emitted command).

Conventions of the embedding:

* `double` arithmetic is taken over a field `K`; the theorems instantiate
  `K := ℝ`.  `cos` and `sin` of `<math.h>` are parameters `cosf sinf : K → K`,
  instantiated with `Real.cos` and `Real.sin`.
* `Eigen::VectorXd` / `std::vector<double>` are lists, read with
  `List.getD · · 0`; `Eigen::MatrixXd` is `MatrixXd` below.
* `assert` is active: a failed assertion aborts the process.
* `Eigen::HouseholderQR::solve` is library code outside the repository; it is
  a parameter `solve`, and its least-squares contract is `IsLeastSquares`.
-/

namespace MPC

variable {K : Type} [Field K]

/-! ## Data model -/

/-- Dense matrix in the sense of `Eigen::MatrixXd`: its dimensions and its
coefficient accessor `A(i, j)`. -/
structure MatrixXd (K : Type) where
  rows : Nat
  cols : Nat
  coeff : Nat → Nat → K

/-- The assignment `A(r, c) = v`. -/
def MatrixXd.set (A : MatrixXd K) (r c : Nat) (v : K) : MatrixXd K :=
  { A with coeff := fun i j => if i = r ∧ j = c then v else A.coeff i j }

/-- The telemetry payload `j[1]` read by the handler. -/
structure Telemetry (K : Type) where
  x : K
  y : K
  psi : K
  speed : K
  ptsx : List K
  ptsy : List K

/-- The fields of `msgJson`, the outbound `steer` command. -/
structure Command (K : Type) where
  steering_angle : K
  throttle : K
  mpc_x : List K
  mpc_y : List K
  next_x : List K
  next_y : List K

/-- What one telemetry cycle computes before `ws.send`: the six-entry `state`
vector prepared for the optimizer, the fitted `refCoeffs`, and `msgJson`. -/
structure Cycle (K : Type) where
  state : List K
  refCoeffs : List K
  msgJson : Command K

/-- How the handler ends on a telemetry event: a failed `assert` aborts the
process; otherwise the handler returns, having sent a command or not. -/
inductive Outcome (K : Type) where
  | aborted : Outcome K
  | returned : Option (Cycle K) → Outcome K

/-! ## `polyEval` (main.cpp 36-45) -/

/-- The loop of `polyEval`: `result += coeffs[i] * pow(x, i)` for `i` from `0`
to `coeffs.size() - 1`, starting from `result = 0.0`. -/
def polyEval (coeffs : List K) (x : K) : K :=
  (List.range coeffs.length).foldl (fun result i => result + coeffs.getD i 0 * x ^ i) 0

/-- Horner form of a polynomial, as the specification words it:
`c_0 + x * (c_1 + x * (... + x * c_{n-1}))`. -/
def hornerEval (x : K) : List K → K
  | [] => 0
  | c :: cs => c + x * hornerEval x cs

/-! ## `polyFit` (main.cpp 47-72) -/

/-- Lines 54-67 of `polyFit`: allocate `A(xvals.size(), order + 1)`, set the
first column to `1.0`, then fill each row by `A(j, i + 1) = A(j, i) * xvals(j)`.
Entries of a freshly allocated matrix are unspecified; all of them are
overwritten, and the embedding starts from zeros. -/
def designMatrix (xvals : List K) (order : Nat) : MatrixXd K :=
  let A0 : MatrixXd K := ⟨xvals.length, order + 1, fun _ _ => 0⟩
  let A1 := (List.range xvals.length).foldl (fun A i => A.set i 0 1) A0
  (List.range xvals.length).foldl
    (fun A j => (List.range order).foldl
      (fun A i => A.set j (i + 1) (A.coeff j i * xvals.getD j 0)) A)
    A1

/-- The function `polyFit`: `none` is a failed assertion (lines 52-53);
otherwise the result of `Q.solve(yvals)` on the design matrix. -/
def polyFit (solve : MatrixXd K → List K → List K) (xvals yvals : List K) (order : Int) :
    Option (List K) :=
  if xvals.length ≠ yvals.length then none
  else if ¬ (order ≥ 1 ∧ order ≤ (xvals.length : Int) - 1) then none
  else some (solve (designMatrix xvals order.toNat) yvals)

/-! ## The telemetry branch of `onMessage` (main.cpp 99-185) -/

/-- Line 122: the local x-coordinate of the waypoint `(px, py)` for the pose
`(x0, y0, psi0)`. -/
def toVehicleX (cosf sinf : K → K) (x0 y0 psi0 px py : K) : K :=
  cosf (-psi0) * (px - x0) - sinf (-psi0) * (py - y0)

/-- Line 123: the local y-coordinate of the waypoint `(px, py)` for the pose
`(x0, y0, psi0)`. -/
def toVehicleY (cosf sinf : K → K) (x0 y0 psi0 px py : K) : K :=
  sinf (-psi0) * (px - x0) + cosf (-psi0) * (py - y0)

/-- Lines 104-110: the initial `state` vector. -/
def initState (t : Telemetry K) : List K :=
  [t.x, t.y, t.psi, t.speed, 0, 0]

/-- Lines 118-124: the vector `refXPlanned`, one entry per element of `ptsx`. -/
def refXPlanned (cosf sinf : K → K) (t : Telemetry K) : List K :=
  (List.range t.ptsx.length).map fun i =>
    toVehicleX cosf sinf ((initState t).getD 0 0) ((initState t).getD 1 0)
      ((initState t).getD 2 0) (t.ptsx.getD i 0) (t.ptsy.getD i 0)

/-- Lines 119-124: the vector `refYPlanned`, sized by `ptsy` and filled by the
loop over the indices of `ptsx` (the two sizes agree after the assertion). -/
def refYPlanned (cosf sinf : K → K) (t : Telemetry K) : List K :=
  (List.range t.ptsx.length).map fun i =>
    toVehicleY cosf sinf ((initState t).getD 0 0) ((initState t).getD 1 0)
      ((initState t).getD 2 0) (t.ptsx.getD i 0) (t.ptsy.getD i 0)

/-- Lines 130-136: the loop `for (int x = 0; x < 100; x += 5)`, pushing `x` to
`refWaypointsX` and `polyEval(refCoeffs, x)` to `refWaypointsY`. -/
def sampleLoop (refCoeffs : List K) (x : Nat) (wx wy : List K) : List K × List K :=
  if x < 100 then
    sampleLoop refCoeffs (x + 5) (wx ++ [(x : K)]) (wy ++ [polyEval refCoeffs (x : K)])
  else (wx, wy)
termination_by 100 - x

/-- The telemetry branch of the handler, lines 101-184, with the solve branch
commented out as in the source. -/
def onTelemetry (cosf sinf : K → K) (solve : MatrixXd K → List K → List K)
    (t : Telemetry K) : Outcome K :=
  let state := initState t
  if t.ptsx.length ≠ t.ptsy.length then Outcome.aborted
  else
    match polyFit solve (refXPlanned cosf sinf t) (refYPlanned cosf sinf t) 3 with
    | none => Outcome.aborted
    | some refCoeffs =>
      let ref := sampleLoop refCoeffs 0 [] []
      let state := state.set 4 (-polyEval refCoeffs 0)
      let state := state.set 5 0.0
      Outcome.returned (some
        { state := state
          refCoeffs := refCoeffs
          msgJson :=
            { steering_angle := 0.0
              throttle := 0.4
              mpc_x := ref.1
              mpc_y := ref.2
              next_x := ref.1
              next_y := ref.2 } })

/-! ## Specification-side notions -/

/-- Sum of squared residuals of `A * c - b`, over the rows and columns of `A`. -/
def residual {F : Type} [Field F] (A : MatrixXd F) (b c : List F) : F :=
  ∑ j in Finset.range A.rows,
    ((∑ i in Finset.range A.cols, A.coeff j i * c.getD i 0) - b.getD j 0) ^ 2

/-- Contract of `Eigen::HouseholderQR::solve` over the reals, for library code
outside the repository: the returned vector has one entry per column of `A`
and minimises the sum of squared residuals of `A * c = b`. -/
def IsLeastSquares (A : MatrixXd ℝ) (b c : List ℝ) : Prop :=
  c.length = A.cols ∧ ∀ c' : List ℝ, c'.length = A.cols → residual A b c ≤ residual A b c'

/-- The planar rotation `R(t) * v` with `R(t) = [[cos t, -sin t], [sin t, cos t]]`,
as the specification words it. -/
def rotate (cosf sinf : K → K) (t : K) (v : K × K) : K × K :=
  (cosf t * v.1 - sinf t * v.2, sinf t * v.1 + cosf t * v.2)

/-- The coordinates at which the reference curve is sampled: `0, 5, ..., 95`. -/
def stations : List Nat :=
  [0, 5, 10, 15, 20, 25, 30, 35, 40, 45, 50, 55, 60, 65, 70, 75, 80, 85, 90, 95]

/-- The straight-line scenario of the specification: state `(x, y, psi, v) =
(0, 0, 0, 10)` with the three waypoints `x: [0, 25, 50]`, `y: [0, 0, 0]`. -/
def straightLine3 : Telemetry K :=
  { x := 0, y := 0, psi := 0, speed := 10, ptsx := [0, 25, 50], ptsy := [0, 0, 0] }

/-- The straight-line scenario extended by a fourth collinear waypoint. -/
def straightLine4 : Telemetry K :=
  { x := 0, y := 0, psi := 0, speed := 10, ptsx := [0, 25, 50, 75], ptsy := [0, 0, 0, 0] }

/-- A diagonal path seen from the origin: waypoints on the line `y = x`. -/
def diagonal4 : Telemetry K :=
  { x := 0, y := 0, psi := 0, speed := 10, ptsx := [0, 1, 2, 3], ptsy := [0, 1, 2, 3] }

/-- A stand-in for the library solver that answers the zero vector with one
entry per column; it meets the dimension contract of `solve` on every input. -/
def zeroSolve (A : MatrixXd K) (_ : List K) : List K :=
  List.replicate A.cols 0

/-- A stand-in for the library solver that answers the fixed vector `c`. -/
def constSolve (c : List K) (_ : MatrixXd K) (_ : List K) : List K :=
  c

/-! ## Basic facts -/

theorem polyEval_eq_sum (c : List K) (x : K) :
    polyEval c x = ∑ i in Finset.range c.length, c.getD i 0 * x ^ i := by
  unfold polyEval
  generalize c.length = n
  induction n with
  | zero => simp
  | succ n ih => rw [List.range_succ, List.foldl_append, ih, Finset.sum_range_succ]; rfl

theorem sum_eq_hornerEval (c : List K) (x : K) :
    ∑ i in Finset.range c.length, c.getD i 0 * x ^ i = hornerEval x c := by
  induction c with
  | nil => simp [hornerEval]
  | cons a cs ih =>
    rw [List.length_cons, Finset.sum_range_succ', hornerEval, ← ih, Finset.mul_sum]
    simp only [List.getD_cons_succ, List.getD_cons_zero, pow_zero, mul_one, pow_succ]
    rw [add_comm]
    congr 1
    apply Finset.sum_congr rfl
    intro i _
    ring

theorem sampleLoop_zero (c : List K) :
    sampleLoop c 0 [] [] =
      (stations.map fun x => (x : K), stations.map fun x => polyEval c (x : K)) := by
  simp [sampleLoop, stations]

/-! ### The design matrix is the Vandermonde matrix -/

theorem MatrixXd.coeff_set {F : Type} (A : MatrixXd F) (r c : Nat) (v : F) (i j : Nat) :
    (A.set r c v).coeff i j = if i = r ∧ j = c then v else A.coeff i j := rfl

theorem MatrixXd.rows_set {F : Type} (A : MatrixXd F) (r c : Nat) (v : F) :
    (A.set r c v).rows = A.rows := rfl

theorem MatrixXd.cols_set {F : Type} (A : MatrixXd F) (r c : Nat) (v : F) :
    (A.set r c v).cols = A.cols := rfl

theorem firstColumn_loop (A : MatrixXd K) (n : Nat) :
    let B := (List.range n).foldl (fun A i => A.set i 0 1) A
    B.rows = A.rows ∧ B.cols = A.cols ∧ ∀ j, j < n → B.coeff j 0 = 1 := by
  induction n with
  | zero => simp
  | succ n ih =>
    obtain ⟨h1, h2, h3⟩ := ih
    simp only [List.range_succ, List.foldl_append, List.foldl_cons, List.foldl_nil,
      MatrixXd.rows_set, MatrixXd.cols_set, MatrixXd.coeff_set]
    refine ⟨h1, h2, fun j hj => ?_⟩
    by_cases hjn : j = n
    · simp [hjn]
    · have : j < n := by omega
      simp [hjn, h3 j this]

theorem fillRow_loop (x : K) (j : Nat) (A : MatrixXd K) (order : Nat) :
    let B := (List.range order).foldl (fun A i => A.set j (i + 1) (A.coeff j i * x)) A
    B.rows = A.rows ∧ B.cols = A.cols ∧ (∀ r c, r ≠ j → B.coeff r c = A.coeff r c) ∧
      (A.coeff j 0 = 1 → ∀ i, i ≤ order → B.coeff j i = x ^ i) := by
  induction order with
  | zero =>
    simp only [List.range_zero, List.foldl_nil, true_and]
    refine ⟨fun _ _ _ => trivial, fun h i hi => ?_⟩
    have : i = 0 := by omega
    simp [this, h]
  | succ m ih =>
    obtain ⟨h1, h2, h3, h4⟩ := ih
    simp only [List.range_succ, List.foldl_append, List.foldl_cons, List.foldl_nil,
      MatrixXd.rows_set, MatrixXd.cols_set, MatrixXd.coeff_set]
    refine ⟨h1, h2, fun r c hr => ?_, fun h i hi => ?_⟩
    · simp [hr, h3 r c hr]
    · by_cases him : i = m + 1
      · simp [him, h4 h m (le_refl m), pow_succ]
      · have hle : i ≤ m := by omega
        simp [him, h4 h i hle]

theorem fillRows_loop (xvals : List K) (order : Nat) (A : MatrixXd K) (n : Nat) :
    let B := (List.range n).foldl
      (fun A j => (List.range order).foldl
        (fun A i => A.set j (i + 1) (A.coeff j i * xvals.getD j 0)) A) A
    B.rows = A.rows ∧ B.cols = A.cols ∧ (∀ r c, n ≤ r → B.coeff r c = A.coeff r c) ∧
      ((∀ j, j < n → A.coeff j 0 = 1) →
        ∀ j, j < n → ∀ i, i ≤ order → B.coeff j i = xvals.getD j 0 ^ i) := by
  induction n with
  | zero => simp
  | succ n ih =>
    obtain ⟨h1, h2, h3, h4⟩ := ih
    simp only [List.range_succ, List.foldl_append, List.foldl_cons, List.foldl_nil]
    obtain ⟨g1, g2, g3, g4⟩ := fillRow_loop (xvals.getD n 0) n
      ((List.range n).foldl
        (fun A j => (List.range order).foldl
          (fun A i => A.set j (i + 1) (A.coeff j i * xvals.getD j 0)) A) A) order
    refine ⟨g1.trans h1, g2.trans h2, fun r c hr => ?_, fun hA j hj i hi => ?_⟩
    · rw [g3 r c (by omega)]
      exact h3 r c (by omega)
    · by_cases hjn : j = n
      · subst hjn
        apply g4 _ i hi
        rw [h3 j 0 (le_refl j)]
        exact hA j hj
      · rw [g3 j i hjn]
        exact h4 (fun k hk => hA k (by omega)) j (by omega) i hi

theorem designMatrix_rows (xvals : List K) (order : Nat) :
    (designMatrix xvals order).rows = xvals.length := by
  unfold designMatrix
  have h := firstColumn_loop (K := K) ⟨xvals.length, order + 1, fun _ _ => 0⟩ xvals.length
  have g := fillRows_loop xvals order
    ((List.range xvals.length).foldl (fun A i => A.set i 0 1)
      ⟨xvals.length, order + 1, fun _ _ => 0⟩) xvals.length
  exact g.1.trans h.1

theorem designMatrix_cols (xvals : List K) (order : Nat) :
    (designMatrix xvals order).cols = order + 1 := by
  unfold designMatrix
  have h := firstColumn_loop (K := K) ⟨xvals.length, order + 1, fun _ _ => 0⟩ xvals.length
  have g := fillRows_loop xvals order
    ((List.range xvals.length).foldl (fun A i => A.set i 0 1)
      ⟨xvals.length, order + 1, fun _ _ => 0⟩) xvals.length
  exact g.2.1.trans h.2.1

theorem designMatrix_coeff (xvals : List K) (order : Nat) (j i : Nat)
    (hj : j < xvals.length) (hi : i ≤ order) :
    (designMatrix xvals order).coeff j i = xvals.getD j 0 ^ i := by
  unfold designMatrix
  have h := firstColumn_loop (K := K) ⟨xvals.length, order + 1, fun _ _ => 0⟩ xvals.length
  have g := fillRows_loop xvals order
    ((List.range xvals.length).foldl (fun A i => A.set i 0 1)
      ⟨xvals.length, order + 1, fun _ _ => 0⟩) xvals.length
  exact g.2.2.2 h.2.2 j hj i hi

/-! ### Entries of the transformed waypoint vectors -/

theorem refXPlanned_length (cosf sinf : K → K) (t : Telemetry K) :
    (refXPlanned cosf sinf t).length = t.ptsx.length := by
  simp [refXPlanned]

theorem refYPlanned_length (cosf sinf : K → K) (t : Telemetry K) :
    (refYPlanned cosf sinf t).length = t.ptsx.length := by
  simp [refYPlanned]

theorem refXPlanned_getD (cosf sinf : K → K) (t : Telemetry K) (i : Nat)
    (hi : i < t.ptsx.length) :
    (refXPlanned cosf sinf t).getD i 0 =
      toVehicleX cosf sinf t.x t.y t.psi (t.ptsx.getD i 0) (t.ptsy.getD i 0) := by
  simp [refXPlanned, initState, List.getD_eq_getElem?_getD, List.getElem?_map,
    List.getElem?_range hi]

theorem refYPlanned_getD (cosf sinf : K → K) (t : Telemetry K) (i : Nat)
    (hi : i < t.ptsx.length) :
    (refYPlanned cosf sinf t).getD i 0 =
      toVehicleY cosf sinf t.x t.y t.psi (t.ptsx.getD i 0) (t.ptsy.getD i 0) := by
  simp [refYPlanned, initState, List.getD_eq_getElem?_getD, List.getElem?_map,
    List.getElem?_range hi]

/-! ### What the handler does on each path -/

theorem polyFit_eq_some (solve : MatrixXd K → List K → List K) (xvals yvals : List K)
    (order : Int) (hlen : xvals.length = yvals.length) (h1 : 1 ≤ order)
    (h2 : order ≤ (xvals.length : Int) - 1) :
    polyFit solve xvals yvals order = some (solve (designMatrix xvals order.toNat) yvals) := by
  unfold polyFit
  rw [if_neg (fun h => h hlen), if_neg (fun h => h ⟨h1, h2⟩)]

theorem polyFit_eq_none_iff (solve : MatrixXd K → List K → List K) (xvals yvals : List K)
    (order : Int) :
    polyFit solve xvals yvals order = none ↔
      (xvals.length ≠ yvals.length ∨ order < 1 ∨ order > (xvals.length : Int) - 1) := by
  unfold polyFit
  split_ifs with a b
  · exact ⟨fun _ => Or.inl a, fun _ => rfl⟩
  · constructor
    · intro h
      cases h
    · intro h
      exfalso
      omega
  · exact ⟨fun _ => Or.inr (by omega), fun _ => rfl⟩

theorem zeroLiteral_eq : (0.0 : K) = 0 := by
  norm_num

theorem onTelemetry_aborted (cosf sinf : K → K) (solve : MatrixXd K → List K → List K)
    (t : Telemetry K) (h : t.ptsx.length ≠ t.ptsy.length ∨ t.ptsx.length < 4) :
    onTelemetry cosf sinf solve t = Outcome.aborted := by
  unfold onTelemetry
  by_cases hlen : t.ptsx.length = t.ptsy.length
  · have hlt : t.ptsx.length < 4 := by
      rcases h with h | h
      · exact absurd hlen h
      · exact h
    have hnone : polyFit solve (refXPlanned cosf sinf t) (refYPlanned cosf sinf t) 3 = none := by
      rw [polyFit_eq_none_iff, refXPlanned_length]
      right; right
      omega
    simp [hlen, hnone]
  · simp [hlen]

theorem polyFit_transformed (cosf sinf : K → K) (solve : MatrixXd K → List K → List K)
    (t : Telemetry K) (h4 : 4 ≤ t.ptsx.length) :
    polyFit solve (refXPlanned cosf sinf t) (refYPlanned cosf sinf t) 3 =
      some (solve (designMatrix (refXPlanned cosf sinf t) 3) (refYPlanned cosf sinf t)) := by
  have := polyFit_eq_some solve (refXPlanned cosf sinf t) (refYPlanned cosf sinf t) 3
    (by rw [refXPlanned_length, refYPlanned_length]) (by norm_num)
    (by rw [refXPlanned_length]; omega)
  simpa using this

theorem onTelemetry_returned (cosf sinf : K → K) (solve : MatrixXd K → List K → List K)
    (t : Telemetry K) (hlen : t.ptsx.length = t.ptsy.length) (h4 : 4 ≤ t.ptsx.length) :
    onTelemetry cosf sinf solve t =
      Outcome.returned (some
        { state := [t.x, t.y, t.psi, t.speed,
            -polyEval (solve (designMatrix (refXPlanned cosf sinf t) 3)
              (refYPlanned cosf sinf t)) 0, 0]
          refCoeffs := solve (designMatrix (refXPlanned cosf sinf t) 3) (refYPlanned cosf sinf t)
          msgJson :=
            { steering_angle := 0
              throttle := 0.4
              mpc_x := stations.map fun x => (x : K)
              mpc_y := stations.map fun x =>
                polyEval (solve (designMatrix (refXPlanned cosf sinf t) 3)
                  (refYPlanned cosf sinf t)) (x : K)
              next_x := stations.map fun x => (x : K)
              next_y := stations.map fun x =>
                polyEval (solve (designMatrix (refXPlanned cosf sinf t) 3)
                  (refYPlanned cosf sinf t)) (x : K) } }) := by
  have hfit := polyFit_transformed cosf sinf solve t h4
  unfold onTelemetry
  simp only [hlen, ne_eq, not_true_eq_false, if_false, hfit, sampleLoop_zero, initState]
  simp [List.set, zeroLiteral_eq]

/-! ### Least squares on an interpolation problem -/

theorem residual_nonneg (A : MatrixXd ℝ) (b c : List ℝ) : 0 ≤ residual A b c :=
  Finset.sum_nonneg fun _ _ => sq_nonneg _

theorem residual_eq_zero_iff (A : MatrixXd ℝ) (b c : List ℝ) :
    residual A b c = 0 ↔
      ∀ j, j < A.rows → ∑ i in Finset.range A.cols, A.coeff j i * c.getD i 0 = b.getD j 0 := by
  unfold residual
  rw [Finset.sum_eq_zero_iff_of_nonneg (fun _ _ => sq_nonneg _)]
  constructor
  · intro h j hj
    have := h j (Finset.mem_range.mpr hj)
    exact sub_eq_zero.mp ((pow_eq_zero_iff (two_ne_zero)).mp this)
  · intro h j hj
    rw [h j (Finset.mem_range.mp hj), sub_self]
    norm_num

theorem exists_interpolant (xs ys : List ℝ) (hd : xs.Nodup) :
    ∃ c : List ℝ, c.length = xs.length ∧
      ∀ j, j < xs.length →
        ∑ i in Finset.range xs.length, xs.getD j 0 ^ i * c.getD i 0 = ys.getD j 0 := by
  have hinj : Set.InjOn (fun j => xs.getD j 0) (Finset.range xs.length : Set ℕ) := by
    intro a ha b hb hab
    have ha' : a < xs.length := by simpa using ha
    have hb' : b < xs.length := by simpa using hb
    simp only [List.getD_eq_getElem _ _ ha', List.getD_eq_getElem _ _ hb'] at hab
    exact (hd.getElem_inj_iff).mp hab
  let p := Lagrange.interpolate (Finset.range xs.length) (fun j => xs.getD j 0)
    (fun j => ys.getD j 0)
  have hdeg : p.degree < (xs.length : ℕ) := by
    have := Lagrange.degree_interpolate_lt (fun j => ys.getD j 0) hinj
    rw [Finset.card_range] at this
    exact this
  refine ⟨(List.range xs.length).map p.coeff, by simp, fun j hj => ?_⟩
  have hnat : p.natDegree < xs.length := by
    by_cases hp : p = 0
    · rw [hp, Polynomial.natDegree_zero]; omega
    · exact (Polynomial.natDegree_lt_iff_degree_lt hp).mpr hdeg
  have hev : Polynomial.eval (xs.getD j 0) p = ys.getD j 0 :=
    Lagrange.eval_interpolate_at_node (fun j => ys.getD j 0) hinj (Finset.mem_range.mpr hj)
  rw [← hev, Polynomial.eval_eq_sum_range' hnat]
  apply Finset.sum_congr rfl
  intro i hi
  have hi' : i < xs.length := Finset.mem_range.mp hi
  simp [List.getD_eq_getElem?_getD, List.getElem?_map, List.getElem?_range hi', mul_comm]

theorem leastSquares_interpolates (solve : MatrixXd ℝ → List ℝ → List ℝ) (xs ys : List ℝ)
    (hd : xs.Nodup) (hpos : 0 < xs.length)
    (hls : IsLeastSquares (designMatrix xs (xs.length - 1)) ys
      (solve (designMatrix xs (xs.length - 1)) ys)) :
    ∀ j, j < xs.length →
      polyEval (solve (designMatrix xs (xs.length - 1)) ys) (xs.getD j 0) = ys.getD j 0 := by
  obtain ⟨hlen, hmin⟩ := hls
  have hcols : (designMatrix xs (xs.length - 1)).cols = xs.length := by
    rw [designMatrix_cols]; omega
  obtain ⟨c', hc', hint⟩ := exists_interpolant xs ys hd
  have hzero' : residual (designMatrix xs (xs.length - 1)) ys c' = 0 := by
    rw [residual_eq_zero_iff, designMatrix_rows, hcols]
    intro j hj
    rw [← hint j hj]
    apply Finset.sum_congr rfl
    intro i hi
    rw [designMatrix_coeff xs _ j i hj (by have := Finset.mem_range.mp hi; omega)]
  have hzero : residual (designMatrix xs (xs.length - 1)) ys
      (solve (designMatrix xs (xs.length - 1)) ys) = 0 :=
    le_antisymm (hzero' ▸ hmin c' (hc'.trans hcols.symm)) (residual_nonneg _ _ _)
  rw [residual_eq_zero_iff, designMatrix_rows, hcols] at hzero
  intro j hj
  rw [polyEval_eq_sum, hlen, hcols, ← hzero j hj]
  apply Finset.sum_congr rfl
  intro i hi
  rw [designMatrix_coeff xs _ j i hj (by have := Finset.mem_range.mp hi; omega), mul_comm]

theorem isLeastSquares_of_exact (xs ys c : List ℝ) (order : Nat)
    (hlen : c.length = order + 1)
    (h : ∀ j, j < xs.length →
      ∑ i in Finset.range (order + 1), xs.getD j 0 ^ i * c.getD i 0 = ys.getD j 0) :
    IsLeastSquares (designMatrix xs order) ys c := by
  have hzero : residual (designMatrix xs order) ys c = 0 := by
    rw [residual_eq_zero_iff, designMatrix_rows, designMatrix_cols]
    intro j hj
    rw [← h j hj]
    apply Finset.sum_congr rfl
    intro i hi
    rw [designMatrix_coeff xs _ j i hj (by have := Finset.mem_range.mp hi; omega)]
  refine ⟨by rw [hlen, designMatrix_cols], fun c' _ => ?_⟩
  rw [hzero]
  exact residual_nonneg _ _ _

/-! ### Concrete inputs -/

theorem exactFit_two_points :
    IsLeastSquares (designMatrix [0, 1] (2 - 1)) [3, 5]
      (constSolve [3, 2] (designMatrix [0, 1] (2 - 1)) [3, 5]) := by
  apply isLeastSquares_of_exact [0, 1] [3, 5] [3, 2] 1 rfl
  intro j hj
  have hj' : j < 2 := hj
  interval_cases j <;> norm_num [Finset.sum_range_succ]

theorem refXPlanned_straightLine4 :
    refXPlanned Real.cos Real.sin straightLine4 = [0, 25, 50, 75] := by
  simp [refXPlanned, straightLine4, initState, toVehicleX, List.range_succ]

theorem refYPlanned_straightLine4 :
    refYPlanned Real.cos Real.sin straightLine4 = [0, 0, 0, 0] := by
  simp [refYPlanned, straightLine4, initState, toVehicleY, List.range_succ]

theorem refXPlanned_diagonal4 :
    refXPlanned Real.cos Real.sin diagonal4 = [0, 1, 2, 3] := by
  simp [refXPlanned, diagonal4, initState, toVehicleX, List.range_succ]

theorem refYPlanned_diagonal4 :
    refYPlanned Real.cos Real.sin diagonal4 = [0, 1, 2, 3] := by
  simp [refYPlanned, diagonal4, initState, toVehicleY, List.range_succ]

theorem exactFit_diagonal4 :
    IsLeastSquares (designMatrix (refXPlanned Real.cos Real.sin diagonal4) 3)
      (refYPlanned Real.cos Real.sin diagonal4)
      (constSolve [0, 1, 0, 0] (designMatrix (refXPlanned Real.cos Real.sin diagonal4) 3)
        (refYPlanned Real.cos Real.sin diagonal4)) := by
  rw [refXPlanned_diagonal4, refYPlanned_diagonal4]
  apply isLeastSquares_of_exact [0, 1, 2, 3] [0, 1, 2, 3] [0, 1, 0, 0] 3 rfl
  intro j hj
  have hj' : j < 4 := hj
  interval_cases j <;> simp [Finset.sum_range_succ]

theorem exactFit_straightLine4 :
    IsLeastSquares (designMatrix (refXPlanned Real.cos Real.sin straightLine4) 3)
      (refYPlanned Real.cos Real.sin straightLine4)
      (constSolve [0, 0, 0, 0] (designMatrix (refXPlanned Real.cos Real.sin straightLine4) 3)
        (refYPlanned Real.cos Real.sin straightLine4)) := by
  rw [refXPlanned_straightLine4, refYPlanned_straightLine4]
  apply isLeastSquares_of_exact [0, 25, 50, 75] [0, 0, 0, 0] [0, 0, 0, 0] 3 rfl
  intro j hj
  have hj' : j < 4 := hj
  interval_cases j <;> simp [Finset.sum_range_succ]

theorem polyEval_zeros (x : ℝ) : polyEval [0, 0, 0, 0] x = 0 := by
  simp [polyEval_eq_sum, Finset.sum_range_succ]

/-- A cubic that vanishes at `0`, `25`, `50` and `75` is the zero polynomial. -/
theorem zero_of_vanishing_on_straightLine4 (c : List ℝ) (hlen : c.length = 4)
    (h : ∀ j, j < 4 → polyEval c (([0, 25, 50, 75] : List ℝ).getD j 0) = 0) :
    c = [0, 0, 0, 0] := by
  match c, hlen with
  | [c0, c1, c2, c3], _ =>
    have e0 := h 0 (by norm_num)
    have e1 := h 1 (by norm_num)
    have e2 := h 2 (by norm_num)
    have e3 := h 3 (by norm_num)
    simp [polyEval_eq_sum, Finset.sum_range_succ] at e0 e1 e2 e3
    subst e0
    have h3 : c3 = 0 := by linarith
    have h2 : c2 = 0 := by linarith
    have h1 : c1 = 0 := by linarith
    simp [h1, h2, h3]

/-! ## Frame transform -/

/-- C1: the frame transform is an isometry. For every pose `(x0, y0, psi0)` and
every two world-frame waypoints `p = (px, py)` and `q = (qx, qy)`, the
Euclidean distance between their images under lines 122-123 equals the
Euclidean distance between `p` and `q`. -/
theorem frameTransform_isometry (x0 y0 psi0 px py qx qy : ℝ) :
    Real.sqrt
        ((toVehicleX Real.cos Real.sin x0 y0 psi0 px py -
            toVehicleX Real.cos Real.sin x0 y0 psi0 qx qy) ^ 2 +
          (toVehicleY Real.cos Real.sin x0 y0 psi0 px py -
            toVehicleY Real.cos Real.sin x0 y0 psi0 qx qy) ^ 2) =
      Real.sqrt ((px - qx) ^ 2 + (py - qy) ^ 2) := by
  congr 1
  unfold toVehicleX toVehicleY
  have h := Real.cos_sq_add_sin_sq (-psi0)
  linear_combination ((px - qx) ^ 2 + (py - qy) ^ 2) * h

/-- C2: the frame transform puts the vehicle at the origin with its heading
along `+x`. The world point at distance `d` ahead of the pose,
`(x0 + d * cos psi0, y0 + d * sin psi0)`, is mapped to `(d, 0)`, and the
vehicle position itself is mapped to `(0, 0)`. -/
theorem frameTransform_heading_axis (x0 y0 psi0 d : ℝ) :
    toVehicleX Real.cos Real.sin x0 y0 psi0
        (x0 + d * Real.cos psi0) (y0 + d * Real.sin psi0) = d ∧
      toVehicleY Real.cos Real.sin x0 y0 psi0
        (x0 + d * Real.cos psi0) (y0 + d * Real.sin psi0) = 0 ∧
      toVehicleX Real.cos Real.sin x0 y0 psi0 x0 y0 = 0 ∧
      toVehicleY Real.cos Real.sin x0 y0 psi0 x0 y0 = 0 := by
  unfold toVehicleX toVehicleY
  have h := Real.cos_sq_add_sin_sq psi0
  simp only [Real.cos_neg, Real.sin_neg]
  refine ⟨?_, ?_, ?_, ?_⟩
  · linear_combination d * h
  · ring
  · ring
  · ring

/-- C10, as stated, fails: for the pose `(1, 0, π)` and the waypoint `(0, 0)`
the handler computes the local point `(1, 0)`, while rotating by `-psi0` and
then translating by `-(x0, y0)` gives `(-1, 0)`. -/
theorem frameTransform_not_rotate_then_translate :
    toVehicleX Real.cos Real.sin 1 0 Real.pi 0 0 = 1 ∧
      (rotate Real.cos Real.sin (-Real.pi) (0, 0)).1 - 1 = -1 ∧
      toVehicleX Real.cos Real.sin 1 0 Real.pi 0 0 ≠
        (rotate Real.cos Real.sin (-Real.pi) (0, 0)).1 - 1 := by
  have h1 : toVehicleX Real.cos Real.sin 1 0 Real.pi 0 0 = 1 := by
    simp [toVehicleX]
  have h2 : (rotate Real.cos Real.sin (-Real.pi) ((0 : ℝ), (0 : ℝ))).1 - 1 = -1 := by
    simp [rotate]
  refine ⟨h1, h2, ?_⟩
  rw [h1, h2]
  norm_num

/-- C10, amended: the frame transform is the translation by `-(x0, y0)`
followed by the rotation by `-psi0`. For every pose and every waypoint the
computed local point equals `R(-psi0) * ((px, py) - (x0, y0))`, that is
`R(-psi0) * (px, py) - R(-psi0) * (x0, y0)`. -/
theorem frameTransform_translate_then_rotate (x0 y0 psi0 px py : ℝ) :
    (toVehicleX Real.cos Real.sin x0 y0 psi0 px py,
        toVehicleY Real.cos Real.sin x0 y0 psi0 px py) =
      rotate Real.cos Real.sin (-psi0) (px - x0, py - y0) ∧
    (toVehicleX Real.cos Real.sin x0 y0 psi0 px py,
        toVehicleY Real.cos Real.sin x0 y0 psi0 px py) =
      ((rotate Real.cos Real.sin (-psi0) (px, py)).1 -
          (rotate Real.cos Real.sin (-psi0) (x0, y0)).1,
        (rotate Real.cos Real.sin (-psi0) (px, py)).2 -
          (rotate Real.cos Real.sin (-psi0) (x0, y0)).2) := by
  refine ⟨rfl, ?_⟩
  simp only [toVehicleX, toVehicleY, rotate, Prod.mk.injEq]
  constructor <;> ring

/-! ## Polynomial evaluation -/

/-- C9: `polyEval` is the power sum `∑ c_i * x ^ i` (with `x ^ 0 = 1` also at
`x = 0`), it agrees with Horner evaluation, it is `0` on the empty coefficient
vector, and `polyEval (c_0 :: cs) 0 = c_0`. -/
theorem polyEval_powerSum_horner (c : List ℝ) (x : ℝ) :
    polyEval c x = ∑ i in Finset.range c.length, c.getD i 0 * x ^ i ∧
      polyEval c x = hornerEval x c ∧
      polyEval ([] : List ℝ) x = 0 ∧
      ∀ (c0 : ℝ) (cs : List ℝ), polyEval (c0 :: cs) 0 = c0 := by
  refine ⟨polyEval_eq_sum c x, ?_, ?_, ?_⟩
  · rw [polyEval_eq_sum, sum_eq_hornerEval]
  · simp [polyEval]
  · intro c0 cs
    rw [polyEval_eq_sum, sum_eq_hornerEval]
    simp [hornerEval]

/-! ## Polynomial fit -/

/-- C5: with a solver that returns one entry per column, `polyFit` fails its
assertions exactly when `len xs ≠ len ys`, `order < 1` or
`order > len xs - 1`; otherwise it returns a vector of length `order + 1`. -/
theorem polyFit_fails_iff (solve : MatrixXd ℝ → List ℝ → List ℝ)
    (hsolve : ∀ A b, (solve A b).length = A.cols) (xs ys : List ℝ) (order : Int) :
    (polyFit solve xs ys order = none ↔
        (xs.length ≠ ys.length ∨ order < 1 ∨ order > (xs.length : Int) - 1)) ∧
      (¬ (xs.length ≠ ys.length ∨ order < 1 ∨ order > (xs.length : Int) - 1) →
        ∃ c, polyFit solve xs ys order = some c ∧ (c.length : Int) = order + 1) := by
  refine ⟨polyFit_eq_none_iff solve xs ys order, fun h => ?_⟩
  have hlen : xs.length = ys.length := by omega
  have h1 : 1 ≤ order := by omega
  have h2 : order ≤ (xs.length : Int) - 1 := by omega
  refine ⟨_, polyFit_eq_some solve xs ys order hlen h1 h2, ?_⟩
  rw [hsolve, designMatrix_cols]
  omega

theorem polyFit_fails_iff_witness :
    (∀ (A : MatrixXd ℝ) (b : List ℝ), (zeroSolve A b).length = A.cols) ∧
      ((polyFit zeroSolve ([0, 1] : List ℝ) [3, 5] 1 = none ↔
          (([0, 1] : List ℝ).length ≠ ([3, 5] : List ℝ).length ∨ (1 : Int) < 1 ∨
            (1 : Int) > (([0, 1] : List ℝ).length : Int) - 1)) ∧
        (¬ (([0, 1] : List ℝ).length ≠ ([3, 5] : List ℝ).length ∨ (1 : Int) < 1 ∨
            (1 : Int) > (([0, 1] : List ℝ).length : Int) - 1) →
          ∃ c, polyFit zeroSolve ([0, 1] : List ℝ) [3, 5] 1 = some c ∧ (c.length : Int) = 1 + 1)) :=
  ⟨fun A _ => List.length_replicate A.cols 0,
    polyFit_fails_iff zeroSolve (fun A _ => List.length_replicate A.cols 0) [0, 1] [3, 5] 1⟩

/-- C3: fit-then-evaluate round trip in the exact-interpolation case. For
`n ≥ 2` pairwise distinct stations `xs` and values `ys`, when the solver
returns a least-squares solution of the design system built by `polyFit`,
`polyFit xs ys (n - 1)` returns coefficients whose polynomial takes the value
`ys[j]` at every `xs[j]`. -/
theorem polyFit_roundtrip (solve : MatrixXd ℝ → List ℝ → List ℝ) (n : Nat) (xs ys : List ℝ)
    (hn : 2 ≤ n) (hxs : xs.length = n) (hys : ys.length = n) (hd : xs.Nodup)
    (hls : IsLeastSquares (designMatrix xs (n - 1)) ys (solve (designMatrix xs (n - 1)) ys)) :
    ∃ coeffs, polyFit solve xs ys ((n : Int) - 1) = some coeffs ∧
      ∀ j, j < n → polyEval coeffs (xs.getD j 0) = ys.getD j 0 := by
  have hfit := polyFit_eq_some solve xs ys ((n : Int) - 1) (hxs.trans hys.symm) (by omega)
    (by rw [hxs])
  have hto : ((n : Int) - 1).toNat = n - 1 := by omega
  rw [hto] at hfit
  refine ⟨_, hfit, ?_⟩
  subst hxs
  exact leastSquares_interpolates solve xs ys hd (by omega) hls

theorem polyFit_roundtrip_witness :
    2 ≤ 2 ∧ ([0, 1] : List ℝ).length = 2 ∧ ([3, 5] : List ℝ).length = 2 ∧
      ([0, 1] : List ℝ).Nodup ∧
      IsLeastSquares (designMatrix [0, 1] (2 - 1)) [3, 5]
        (constSolve [3, 2] (designMatrix [0, 1] (2 - 1)) [3, 5]) ∧
      ∃ coeffs, polyFit (constSolve [3, 2]) ([0, 1] : List ℝ) [3, 5] (((2 : Nat) : Int) - 1) =
          some coeffs ∧
        ∀ j, j < 2 → polyEval coeffs (([0, 1] : List ℝ).getD j 0) = ([3, 5] : List ℝ).getD j 0 :=
  ⟨le_refl 2, rfl, rfl, by simp, exactFit_two_points,
    polyFit_roundtrip (constSolve [3, 2]) 2 [0, 1] [3, 5] (le_refl 2) rfl rfl (by simp)
      exactFit_two_points⟩

/-! ## The controller cycle -/

/-- C4, as stated, fails: on a telemetry message with five x-coordinates and
four y-coordinates, and on one with two waypoints, the handler does not return
without a command; an assertion fails and the process aborts. -/
theorem malformed_telemetry_aborts :
    onTelemetry Real.cos Real.sin zeroSolve
        { x := 0, y := 0, psi := 0, speed := 10,
          ptsx := [0, 1, 2, 3, 4], ptsy := [0, 0, 0, 0] } = Outcome.aborted ∧
      onTelemetry Real.cos Real.sin zeroSolve
        { x := 0, y := 0, psi := 0, speed := 10,
          ptsx := [0, 1], ptsy := [0, 0] } = Outcome.aborted ∧
      (Outcome.aborted : Outcome ℝ) ≠ Outcome.returned none := by
  refine ⟨?_, ?_, ?_⟩
  · exact onTelemetry_aborted _ _ _ _ (Or.inl (by decide))
  · exact onTelemetry_aborted _ _ _ _ (Or.inr (by decide))
  · intro h
    cases h

/-- C4, amended: for every telemetry message whose `ptsx` and `ptsy` differ in
length, or which carries fewer than 4 waypoints, the cycle emits no command
and the handler does not return: an assertion fails and the process aborts. -/
theorem malformed_telemetry_no_command (solve : MatrixXd ℝ → List ℝ → List ℝ)
    (t : Telemetry ℝ) (h : t.ptsx.length ≠ t.ptsy.length ∨ t.ptsx.length < 4) :
    onTelemetry Real.cos Real.sin solve t = Outcome.aborted ∧
      ∀ r, onTelemetry Real.cos Real.sin solve t ≠ Outcome.returned r := by
  have habort := onTelemetry_aborted Real.cos Real.sin solve t h
  refine ⟨habort, fun r hr => ?_⟩
  rw [habort] at hr
  cases hr

theorem malformed_telemetry_no_command_witness :
    (([7] : List ℝ).length ≠ ([] : List ℝ).length ∨ ([7] : List ℝ).length < 4) ∧
      (onTelemetry Real.cos Real.sin zeroSolve
          { x := 1, y := 2, psi := 0, speed := 3, ptsx := [7], ptsy := [] } = Outcome.aborted ∧
        ∀ r, onTelemetry Real.cos Real.sin zeroSolve
          { x := 1, y := 2, psi := 0, speed := 3, ptsx := [7], ptsy := [] } ≠
            Outcome.returned r) :=
  ⟨Or.inl (by decide),
    malformed_telemetry_no_command zeroSolve
      { x := 1, y := 2, psi := 0, speed := 3, ptsx := [7], ptsy := [] } (Or.inl (by decide))⟩

/-- C6: fallback command shape. Every telemetry cycle that passes the input
checks (equal-length waypoint lists with at least 4 points) sends a command
with `steering_angle = 0`, `throttle = 0.4` and `mpc_x = next_x`,
`mpc_y = next_y`, where `next_x` is `0, 5, ..., 95` and `next_y` is
`polyEval refCoeffs` at those 20 points, `refCoeffs` being the result of
`polyFit` on the transformed waypoints. -/
theorem fallback_command_shape (solve : MatrixXd ℝ → List ℝ → List ℝ) (t : Telemetry ℝ)
    (hlen : t.ptsx.length = t.ptsy.length) (h4 : 4 ≤ t.ptsx.length) :
    ∃ cyc, onTelemetry Real.cos Real.sin solve t = Outcome.returned (some cyc) ∧
      polyFit solve (refXPlanned Real.cos Real.sin t) (refYPlanned Real.cos Real.sin t) 3 =
        some cyc.refCoeffs ∧
      cyc.msgJson.steering_angle = 0 ∧
      cyc.msgJson.throttle = 0.4 ∧
      cyc.msgJson.mpc_x = cyc.msgJson.next_x ∧
      cyc.msgJson.mpc_y = cyc.msgJson.next_y ∧
      cyc.msgJson.next_x =
        [0, 5, 10, 15, 20, 25, 30, 35, 40, 45, 50, 55, 60, 65, 70, 75, 80, 85, 90, 95] ∧
      cyc.msgJson.next_y =
        ([0, 5, 10, 15, 20, 25, 30, 35, 40, 45, 50, 55, 60, 65, 70, 75, 80, 85, 90, 95] :
          List ℝ).map (polyEval cyc.refCoeffs) ∧
      cyc.msgJson.next_x.length = 20 ∧ cyc.msgJson.next_y.length = 20 := by
  refine ⟨_, onTelemetry_returned Real.cos Real.sin solve t hlen h4,
    polyFit_transformed Real.cos Real.sin solve t h4, rfl, rfl, rfl, rfl, ?_, ?_, rfl, rfl⟩
  · simp [stations]
  · simp [stations]

theorem fallback_command_shape_witness :
    (straightLine4 : Telemetry ℝ).ptsx.length = (straightLine4 : Telemetry ℝ).ptsy.length ∧
      4 ≤ (straightLine4 : Telemetry ℝ).ptsx.length ∧
      ∃ cyc, onTelemetry Real.cos Real.sin zeroSolve straightLine4 =
          Outcome.returned (some cyc) ∧
        polyFit zeroSolve (refXPlanned Real.cos Real.sin straightLine4)
          (refYPlanned Real.cos Real.sin straightLine4) 3 = some cyc.refCoeffs ∧
        cyc.msgJson.steering_angle = 0 ∧
        cyc.msgJson.throttle = 0.4 ∧
        cyc.msgJson.mpc_x = cyc.msgJson.next_x ∧
        cyc.msgJson.mpc_y = cyc.msgJson.next_y ∧
        cyc.msgJson.next_x =
          [0, 5, 10, 15, 20, 25, 30, 35, 40, 45, 50, 55, 60, 65, 70, 75, 80, 85, 90, 95] ∧
        cyc.msgJson.next_y =
          ([0, 5, 10, 15, 20, 25, 30, 35, 40, 45, 50, 55, 60, 65, 70, 75, 80, 85, 90, 95] :
            List ℝ).map (polyEval cyc.refCoeffs) ∧
        cyc.msgJson.next_x.length = 20 ∧ cyc.msgJson.next_y.length = 20 :=
  ⟨rfl, by decide, fallback_command_shape zeroSolve straightLine4 rfl (by decide)⟩

/-- C8, as stated, fails: on the diagonal path `y = x` seen from the origin,
with the exact fit `refCoeffs = [0, 1, 0, 0]`, the cycle hands the optimizer
`state[5] = 0`, while `-refCoeffs[1] = -1`. -/
theorem headingError_not_linear_coeff :
    IsLeastSquares (designMatrix (refXPlanned Real.cos Real.sin diagonal4) 3)
        (refYPlanned Real.cos Real.sin diagonal4)
        (constSolve [0, 1, 0, 0] (designMatrix (refXPlanned Real.cos Real.sin diagonal4) 3)
          (refYPlanned Real.cos Real.sin diagonal4)) ∧
      ∃ cyc, onTelemetry Real.cos Real.sin (constSolve [0, 1, 0, 0]) diagonal4 =
          Outcome.returned (some cyc) ∧
        cyc.refCoeffs = [0, 1, 0, 0] ∧ cyc.state.getD 5 0 = 0 ∧
        -cyc.refCoeffs.getD 1 0 = -1 ∧ cyc.state.getD 5 0 ≠ -cyc.refCoeffs.getD 1 0 := by
  refine ⟨exactFit_diagonal4, _,
    onTelemetry_returned Real.cos Real.sin (constSolve [0, 1, 0, 0]) diagonal4 rfl
      (by decide), rfl, rfl, ?_, ?_⟩
  · simp [constSolve]
  · simp [constSolve]

/-- C8, amended: every telemetry cycle that passes the input checks hands the
optimizer a state whose heading-error component `state[5]` is `0`, alongside
`cte = state[4] = -polyEval refCoeffs 0`, for the fitted `refCoeffs`. -/
theorem headingError_zero (solve : MatrixXd ℝ → List ℝ → List ℝ) (t : Telemetry ℝ)
    (hlen : t.ptsx.length = t.ptsy.length) (h4 : 4 ≤ t.ptsx.length) :
    ∃ cyc, onTelemetry Real.cos Real.sin solve t = Outcome.returned (some cyc) ∧
      polyFit solve (refXPlanned Real.cos Real.sin t) (refYPlanned Real.cos Real.sin t) 3 =
        some cyc.refCoeffs ∧
      cyc.state.getD 5 0 = 0 ∧
      cyc.state.getD 4 0 = -polyEval cyc.refCoeffs 0 ∧
      cyc.state.length = 6 := by
  exact ⟨_, onTelemetry_returned Real.cos Real.sin solve t hlen h4,
    polyFit_transformed Real.cos Real.sin solve t h4, rfl, rfl, rfl⟩

theorem headingError_zero_witness :
    (diagonal4 : Telemetry ℝ).ptsx.length = (diagonal4 : Telemetry ℝ).ptsy.length ∧
      4 ≤ (diagonal4 : Telemetry ℝ).ptsx.length ∧
      ∃ cyc, onTelemetry Real.cos Real.sin (constSolve [0, 1, 0, 0]) diagonal4 =
          Outcome.returned (some cyc) ∧
        polyFit (constSolve [0, 1, 0, 0]) (refXPlanned Real.cos Real.sin diagonal4)
          (refYPlanned Real.cos Real.sin diagonal4) 3 = some cyc.refCoeffs ∧
        cyc.state.getD 5 0 = 0 ∧
        cyc.state.getD 4 0 = -polyEval cyc.refCoeffs 0 ∧
        cyc.state.length = 6 :=
  ⟨rfl, by decide, headingError_zero (constSolve [0, 1, 0, 0]) diagonal4 rfl (by decide)⟩

/-- C7, as stated, fails: on the scenario `(x, y, psi, v) = (0, 0, 0, 10)` with
waypoints `x: [0, 25, 50]`, `y: [0, 0, 0]` the cycle does not complete. The
degree-3 fit is asked for on 3 points, `polyFit` fails its assertion, and the
handler aborts, even with a solver that would answer the zero polynomial. -/
theorem straightLine3_aborts :
    polyFit (constSolve [0, 0, 0, 0]) (refXPlanned Real.cos Real.sin straightLine3)
        (refYPlanned Real.cos Real.sin straightLine3) 3 = none ∧
      onTelemetry Real.cos Real.sin (constSolve [0, 0, 0, 0]) straightLine3 =
        Outcome.aborted := by
  refine ⟨?_, onTelemetry_aborted _ _ _ _ (Or.inr (by decide))⟩
  rw [polyFit_eq_none_iff, refXPlanned_length]
  right; right
  decide

/-- C7, amended: on the scenario with three waypoints the handler aborts on the
assertion of `polyFit`. With a fourth collinear waypoint (`x: [0, 25, 50, 75]`,
`y: [0, 0, 0, 0]`) and a least-squares solver, the cycle completes with the
zero polynomial as fitted curve, `cte = 0`, `epsi = 0`, `steering = 0`, and a
trajectory along `+x` whose y-coordinate is `0` at each of the 20 samples. -/
theorem straightLine_scenario (solve : MatrixXd ℝ → List ℝ → List ℝ)
    (hls : IsLeastSquares (designMatrix (refXPlanned Real.cos Real.sin straightLine4) 3)
      (refYPlanned Real.cos Real.sin straightLine4)
      (solve (designMatrix (refXPlanned Real.cos Real.sin straightLine4) 3)
        (refYPlanned Real.cos Real.sin straightLine4))) :
    onTelemetry Real.cos Real.sin solve straightLine3 = Outcome.aborted ∧
      ∃ cyc, onTelemetry Real.cos Real.sin solve straightLine4 = Outcome.returned (some cyc) ∧
        cyc.refCoeffs = [0, 0, 0, 0] ∧
        cyc.state.getD 4 0 = 0 ∧
        cyc.state.getD 5 0 = 0 ∧
        cyc.msgJson.steering_angle = 0 ∧
        cyc.msgJson.mpc_x =
          [0, 5, 10, 15, 20, 25, 30, 35, 40, 45, 50, 55, 60, 65, 70, 75, 80, 85, 90, 95] ∧
        cyc.msgJson.mpc_y = List.replicate 20 0 := by
  have hc : solve (designMatrix (refXPlanned Real.cos Real.sin straightLine4) 3)
      (refYPlanned Real.cos Real.sin straightLine4) = [0, 0, 0, 0] := by
    have hls' := hls
    rw [refXPlanned_straightLine4, refYPlanned_straightLine4] at hls' ⊢
    have hlen : (solve (designMatrix [0, 25, 50, 75] 3) [0, 0, 0, 0]).length = 4 := by
      rw [hls'.1, designMatrix_cols]
    have hev := leastSquares_interpolates solve [0, 25, 50, 75] [0, 0, 0, 0]
      (by norm_num) (by norm_num) hls'
    apply zero_of_vanishing_on_straightLine4 _ hlen
    intro j hj
    have hval : polyEval (solve (designMatrix [0, 25, 50, 75] 3) [0, 0, 0, 0])
        (([0, 25, 50, 75] : List ℝ).getD j 0) = ([0, 0, 0, 0] : List ℝ).getD j 0 := hev j hj
    rw [hval]
    interval_cases j <;> rfl
  refine ⟨onTelemetry_aborted _ _ _ _ (Or.inr (by decide)), _,
    onTelemetry_returned Real.cos Real.sin solve straightLine4 rfl (by decide), hc, ?_, rfl,
    rfl, ?_, ?_⟩
  · simp [hc, polyEval_zeros]
  · simp [stations]
  · simp [hc, polyEval_zeros, stations]

theorem straightLine_scenario_witness :
    IsLeastSquares (designMatrix (refXPlanned Real.cos Real.sin straightLine4) 3)
        (refYPlanned Real.cos Real.sin straightLine4)
        (constSolve [0, 0, 0, 0] (designMatrix (refXPlanned Real.cos Real.sin straightLine4) 3)
          (refYPlanned Real.cos Real.sin straightLine4)) ∧
      (onTelemetry Real.cos Real.sin (constSolve [0, 0, 0, 0]) straightLine3 =
          Outcome.aborted ∧
        ∃ cyc, onTelemetry Real.cos Real.sin (constSolve [0, 0, 0, 0]) straightLine4 =
            Outcome.returned (some cyc) ∧
          cyc.refCoeffs = [0, 0, 0, 0] ∧
          cyc.state.getD 4 0 = 0 ∧
          cyc.state.getD 5 0 = 0 ∧
          cyc.msgJson.steering_angle = 0 ∧
          cyc.msgJson.mpc_x =
            [0, 5, 10, 15, 20, 25, 30, 35, 40, 45, 50, 55, 60, 65, 70, 75, 80, 85, 90, 95] ∧
          cyc.msgJson.mpc_y = List.replicate 20 0) :=
  ⟨exactFit_straightLine4, straightLine_scenario (constSolve [0, 0, 0, 0]) exactFit_straightLine4⟩

end MPC
